import Mathlib

/-!
Shallow embedding of the data ingestion & normalization pipeline of
`app/streamlit_app.py`: the synthetic demo-data generator (`load_demo`),
the CSV loader's date coercion (`load_csv`), the heuristic schema
normalization block (lines 70-75), the date-range filter (line 84), and
the top-hashtag KPI (lines 90-93).

Modelling conventions:
* A raw (pandas) cell is a `Val` (number, string, or parsed calendar date
  counted in days since 1970-01-01); a null / NaN / NaT cell is the key
  being absent from the row's association list.
* Floating-point values are modelled as rationals; the transcendental and
  random content of the generator (`np.sin` plus gaussian noise, and the
  `np.random.randint` entropy) is supplied through explicit parameters, so
  theorems quantify over every possible draw.
* `pd.DataFrame.groupby("hashtag").sum()` over the projected two columns is
  modelled by listing the distinct non-null hashtag keys and summing the
  `count` cells per key with null counted as 0 (pandas sum semantics for
  NaN); pandas orders group keys sorted while the model lists them in
  occurrence order — no specified property depends on the output order,
  which the spec leaves open.
-/

namespace SocialDash

open scoped List

/-- A raw table cell: numeric, string, or a parsed calendar date
(days since 1970-01-01). -/
inductive Val : Type
  | num (q : ℚ)
  | str (s : String)
  | date (d : ℤ)
deriving DecidableEq

/-- Numeric reading of a cell (pandas cells reaching the numeric columns
are numbers; the other constructors are read as their obvious number). -/
def Val.toRat : Val → ℚ
  | .num q => q
  | .str _ => 0
  | .date d => (d : ℚ)

/-- Date reading of a cell (after `load_csv`, every present `date` cell is
a `Val.date`). -/
def Val.toDate : Val → ℤ
  | .date d => d
  | .num q => q.floor
  | .str _ => 0

/-- A raw row: association list from column name to cell value; a column
missing from the list is a null (NaN/NaT) cell. -/
abbrev Row : Type := List (String × Val)

/-- Cell lookup: `none` models a null cell. -/
def Row.get (r : Row) (c : String) : Option Val :=
  (r.find? (fun p => p.1 == c)).map (·.2)

/-- A raw pandas DataFrame: its column names and its rows. -/
structure RawTable where
  cols : List String
  rows : List Row

/-- One row of the canonical TimeSeries table (`df_time`). -/
structure TimeRow where
  date : ℤ
  sentiment : ℚ
  posts : ℚ
deriving DecidableEq

/-- One row of the canonical HashtagCounts table (`df_tags`). -/
structure TagRow where
  hashtag : Val
  count : ℚ
deriving DecidableEq

/-- One row of the canonical GeoEngagement table (`df_geo`). -/
structure GeoRow where
  lat : ℚ
  lon : ℚ
  region : Val
  engagement : ℚ
deriving DecidableEq

/-- The three canonical tables `(time_df, tag_df, geo_df)`. -/
structure Tables where
  time : List TimeRow
  tags : List TagRow
  geo : List GeoRow

/-! ### Synthetic data generator (`load_demo`, lines 19-44) -/

/-- Day number of 2024-01-01 (days since 1970-01-01): the first entry of
`pd.date_range("2024-01-01", periods=120, freq="D")`. -/
def demoEpoch : ℤ := 19723

/-- `np.clip(x, lo, hi)`. -/
def clip (lo hi x : ℚ) : ℚ := max lo (min hi x)

/-- `np.random.randint(lo, hi)`: a uniform draw from `[lo, hi)`, modelled
by reducing an arbitrary entropy value modulo the width of the range. -/
def randint (lo hi : ℕ) (entropy : ℕ) : ℕ := lo + entropy % (hi - lo)

/-- The five fixed hashtag labels of `df_tags`. -/
def demoHashtags : List String :=
  ["#ClimateJustice", "#LossAndDamage", "#NetZero", "#JustTransition", "#AirQuality"]

/-- The five fixed city coordinates and region labels of `df_geo`. -/
def demoGeo : List (ℚ × ℚ × String) :=
  [(4071/100, -7400/100, "NA-US-NY"),
   (3405/100, -11824/100, "NA-US-CA"),
   (5150/100, -12/100, "EU-UK-LON"),
   (2861/100, 7721/100, "AS-IN-DEL"),
   (-3387/100, 15121/100, "OC-AU-SYD")]

/-- `load_demo()`: `sinNoise i` stands for the real-valued draw
`sin(linspace(0, 10, 120))[i] + Normal(0, 0.2)` (transcendental and random,
hence a parameter of the model), and the three entropy streams feed the
`np.random.randint` draws for `posts`, `count` and `engagement`. -/
def load_demo (sinNoise : ℕ → ℚ) (postsEnt tagEnt geoEnt : ℕ → ℕ) : Tables :=
  { time := (List.range 120).map (fun (i : ℕ) =>
      { date := demoEpoch + (i : ℤ)
        sentiment := clip (-1) 1 (sinNoise i)
        posts := (randint 50 400 (postsEnt i) : ℚ) })
    tags := (List.range 5).map (fun (i : ℕ) =>
      { hashtag := Val.str (demoHashtags.getD i "")
        count := (randint 200 2000 (tagEnt i) : ℚ) })
    geo := (List.range 5).map (fun (i : ℕ) =>
      let g := demoGeo.getD i (0, 0, "")
      { lat := g.1
        lon := g.2.1
        region := Val.str g.2.2
        engagement := (randint 100 3000 (geoEnt i) : ℚ) }) }

/-! ### CSV loader (`load_csv`, lines 47-54) -/

/-- `pd.to_datetime(..., errors="coerce")` applied to one row: every cell
of the `date` column is replaced by its parse (the lenient parser is the
`parse` parameter); an unparseable value becomes null (NaT), every other
cell is kept as is. -/
def parseRowDate (parse : Val → Option ℤ) : Row → Row
  | [] => []
  | kv :: rest =>
    if kv.1 == "date" then
      match parse kv.2 with
      | some d => ("date", Val.date d) :: parseRowDate parse rest
      | none => parseRowDate parse rest
    else kv :: parseRowDate parse rest

/-- `load_csv`: the table as read by `pd.read_csv`, with the `date` column
coerced to dates when (and only when) a column literally named `date`
exists. -/
def load_csv (parse : Val → Option ℤ) (t : RawTable) : RawTable :=
  if "date" ∈ t.cols then { t with rows := t.rows.map (parseRowDate parse) } else t

/-! ### Schema normalization (lines 61, 70-75) -/

/-- `{c₁, …, cₙ}.issubset(df.columns)`. -/
def hasCols (t : RawTable) (need : List String) : Bool :=
  need.all (fun c => t.cols.contains c)

/-- Projection of a raw row onto `["date", "posts", "sentiment"]` followed
by the null test of `.dropna()`: `none` exactly when one of the three cells
is null. -/
def projTime (r : Row) : Option TimeRow :=
  match r.get "date", r.get "posts", r.get "sentiment" with
  | some d, some p, some s =>
      some { date := d.toDate, sentiment := s.toRat, posts := p.toRat }
  | _, _, _ => none

/-- `df_real[["date", "posts", "sentiment"]].dropna()` (line 71). -/
def timeBranch (t : RawTable) : List TimeRow := t.rows.filterMap projTime

/-- Projection of a raw row onto `["lat", "lon", "region", "engagement"]`
followed by the null test of `.dropna()`. -/
def projGeo (r : Row) : Option GeoRow :=
  match r.get "lat", r.get "lon", r.get "region", r.get "engagement" with
  | some la, some lo, some re, some en =>
      some { lat := la.toRat, lon := lo.toRat, region := re, engagement := en.toRat }
  | _, _, _, _ => none

/-- `df_real[["lat", "lon", "region", "engagement"]].dropna()` (line 75). -/
def geoBranch (t : RawTable) : List GeoRow := t.rows.filterMap projGeo

/-- The `count` cell of a row as a summand: a null contributes 0
(pandas `sum` over a group treats NaN as 0). -/
def rowCount (r : Row) : ℚ := ((r.get "count").map Val.toRat).getD 0

/-- Sum of the `count` cells over the rows of one hashtag group. -/
def gsum (k : Val) (rows : List Row) : ℚ :=
  ((rows.filter (fun r => r.get "hashtag" == some k)).map rowCount).sum

/-- The distinct non-null hashtag keys of the raw rows (`groupby` drops
rows whose key is null). -/
def tagKeys (rows : List Row) : List Val :=
  (rows.filterMap (fun r => r.get "hashtag")).dedup

/-- `df_real[["hashtag", "count"]].groupby("hashtag", as_index=False).sum()`
(line 73): one output row per distinct non-null hashtag, carrying the sum
of its `count` cells. -/
def tagBranch (t : RawTable) : List TagRow :=
  (tagKeys t.rows).map (fun k => { hashtag := k, count := gsum k t.rows })

/-- The heuristic mapping block (lines 70-75): each canonical table is
replaced from `raw` exactly when all of its required columns are present,
and otherwise keeps the default produced by `load_demo`. -/
def normalize (raw : RawTable) (d : Tables) : Tables :=
  { time := if hasCols raw ["date", "posts", "sentiment"] then timeBranch raw else d.time
    tags := if hasCols raw ["hashtag", "count"] then tagBranch raw else d.tags
    geo := if hasCols raw ["lat", "lon", "region", "engagement"] then geoBranch raw else d.geo }

/-! ### Date-range filter (lines 79-84) -/

/-- `time_df["date"].min()` (line 79). -/
def dateMin (s : List TimeRow) : Option ℤ := (s.map (·.date)).min?

/-- `time_df["date"].max()` (line 80). -/
def dateMax (s : List TimeRow) : Option ℤ := (s.map (·.date)).max?

/-- `time_df[(time_df["date"] >= start) & (time_df["date"] <= end)]`
(line 84). -/
def filter_by_date (s : List TimeRow) (start stop : ℤ) : List TimeRow :=
  s.filter (fun r => decide (start ≤ r.date ∧ r.date ≤ stop))

/-! ### Top-hashtag KPI (lines 90-93) -/

/-- The descending-`count` comparison used by the top-hashtag sort. -/
def tagLE (a b : TagRow) : Bool := decide (b.count ≤ a.count)

/-- `tag_df.sort_values("count", ascending=False)` (line 91), with the
stable `mergeSort` standing for the pandas sort. -/
def sortByCountDesc (tags : List TagRow) : List TagRow :=
  tags.mergeSort tagLE

/-- The Top Hashtag KPI (lines 90-93): the hashtag of the first row of the
descending sort, or the `"n/a"` sentinel on an empty table. -/
def topHashtag (tags : List TagRow) : Val :=
  if tags.isEmpty then Val.str "n/a"
  else
    match (sortByCountDesc tags).head? with
    | some r => r.hashtag
    | none => Val.str "n/a"

/-! ### Derived notions and concrete example tables used in the theorems -/

/-- All three TimeSeries cells of a raw row are non-null (the row survives
the projected `.dropna()`). -/
def timeComplete (r : Row) : Bool :=
  (r.get "date").isSome && (r.get "posts").isSome && (r.get "sentiment").isSome

/-- Total projection of a raw row onto the TimeSeries columns (meaningful
on rows satisfying `timeComplete`). -/
def timeProj (r : Row) : TimeRow :=
  { date := ((r.get "date").getD (Val.date 0)).toDate
    sentiment := ((r.get "sentiment").getD (Val.num 0)).toRat
    posts := ((r.get "posts").getD (Val.num 0)).toRat }

/-- The spec's two-row TimeSeries scenario: rows
`("2024-01-01", 100, 0.5)` and `("2024-01-02", NULL, 0.3)` under header
`date,posts,sentiment`. -/
def exRawTime : RawTable :=
  ⟨["date", "posts", "sentiment"],
   [[("date", Val.date 19723), ("posts", Val.num 100), ("sentiment", Val.num (1/2))],
    [("date", Val.date 19724), ("sentiment", Val.num (3/10))]]⟩

/-- The spec's HashtagCounts scenario: rows
`[("#A", 10), ("#A", 5), ("#B", 7)]` under header `hashtag,count`. -/
def exRawTags : RawTable :=
  ⟨["hashtag", "count"],
   [[("hashtag", Val.str "#A"), ("count", Val.num 10)],
    [("hashtag", Val.str "#A"), ("count", Val.num 5)],
    [("hashtag", Val.str "#B"), ("count", Val.num 7)]]⟩

/-- A raw table (two unrecognized columns, one row) matching none of the
three recognized schemas. -/
def exNoSchema : RawTable :=
  ⟨["user", "text"], [[("user", Val.str "a"), ("text", Val.str "hello")]]⟩

/-- A HashtagCounts table with a tie for the maximal count (`#Y` first). -/
def exTagsTie : List TagRow :=
  [⟨Val.str "#X", 5⟩, ⟨Val.str "#Y", 7⟩, ⟨Val.str "#Z", 7⟩]

/-- A raw table with no `date` column (for the loader's no-op case). -/
def exRawNoDate : RawTable :=
  ⟨["hashtag", "count"], [[("hashtag", Val.str "#A"), ("count", Val.num 1)]]⟩

/-! ## Theorems -/

/-- Every date of a series is bounded below by `dateMin` of the series. -/
lemma dateMin_le {s : List TimeRow} {a : ℤ} (h : dateMin s = some a) :
    ∀ r ∈ s, a ≤ r.date := by
  intro r hr
  have hle := (List.le_min?_iff (fun a b c => le_min_iff) h (x := a)).1 le_rfl
  exact hle _ (List.mem_map_of_mem _ hr)

/-- Every date of a series is bounded above by `dateMax` of the series. -/
lemma le_dateMax {s : List TimeRow} {b : ℤ} (h : dateMax s = some b) :
    ∀ r ∈ s, r.date ≤ b := by
  intro r hr
  have hle := (List.max?_le_iff (fun a b c => max_le_iff) h (x := b)).1 le_rfl
  exact hle _ (List.mem_map_of_mem _ hr)

/-- C1: `filter_by_date` keeps exactly the rows whose date lies in the
inclusive interval `[start, stop]`; the result is empty (not an error) when
`start > stop`; and it is the full input when `start`/`stop` are the
minimum/maximum date present in the series. -/
theorem filter_by_date_spec (s : List TimeRow) (start stop : ℤ) :
    (∀ r : TimeRow, r ∈ filter_by_date s start stop ↔
        r ∈ s ∧ start ≤ r.date ∧ r.date ≤ stop) ∧
    (stop < start → filter_by_date s start stop = []) ∧
    (dateMin s = some start → dateMax s = some stop →
        filter_by_date s start stop = s) := by
  refine ⟨?_, ?_, ?_⟩
  · intro r
    simp [filter_by_date, List.mem_filter]
  · intro h
    rw [filter_by_date, List.filter_eq_nil_iff]
    intro r _
    simp only [decide_eq_true_eq, not_and]
    omega
  · intro hmin hmax
    rw [filter_by_date, List.filter_eq_self]
    intro r hr
    simp only [decide_eq_true_eq]
    exact ⟨dateMin_le hmin r hr, le_dateMax hmax r hr⟩

/-- Witness for C1: on the one-row series at date 19723, the bounds
`19723, 19723` are its min and max and the filter returns the series. -/
theorem filter_by_date_spec_witness :
    filter_by_date [⟨19723, 1/2, 100⟩] 19723 19723 = [⟨19723, 1/2, 100⟩] :=
  (filter_by_date_spec [⟨19723, 1/2, 100⟩] 19723 19723).2.2 rfl rfl

/-- C10: the date-range filter is a pure row selection: its output is a
sublist of its input, i.e. every output row is an input row with all field
values unmodified, and the retained rows keep their relative input order. -/
theorem filter_by_date_sublist (s : List TimeRow) (start stop : ℤ) :
    (filter_by_date s start stop).Sublist s :=
  List.filter_sublist s

/-- C7: on the empty HashtagCounts table the top-hashtag lookup evaluates
(totally, with no error path) to the `"n/a"` sentinel. -/
theorem topHashtag_empty : topHashtag [] = Val.str "n/a" := rfl

/-- C4: a canonical table whose required column set is not fully present in
the raw table keeps its generated default unchanged; in particular a raw
table matching none of the three schemas leaves all three defaults. -/
theorem normalize_defaults_spec (raw : RawTable) (d : Tables) :
    (hasCols raw ["date", "posts", "sentiment"] = false →
        (normalize raw d).time = d.time) ∧
    (hasCols raw ["hashtag", "count"] = false →
        (normalize raw d).tags = d.tags) ∧
    (hasCols raw ["lat", "lon", "region", "engagement"] = false →
        (normalize raw d).geo = d.geo) ∧
    normalize exNoSchema d = d := by
  have h1 : hasCols exNoSchema ["date", "posts", "sentiment"] = false := by decide
  have h2 : hasCols exNoSchema ["hashtag", "count"] = false := by decide
  have h3 : hasCols exNoSchema ["lat", "lon", "region", "engagement"] = false := by decide
  refine ⟨fun h => ?_, fun h => ?_, fun h => ?_, ?_⟩
  · simp [normalize, h]
  · simp [normalize, h]
  · simp [normalize, h]
  · simp [normalize, h1, h2, h3]

/-- Witness for C4: the no-schema table leaves the empty defaults alone. -/
theorem normalize_defaults_spec_witness :
    (normalize exNoSchema ⟨[], [], []⟩).time = ([] : List TimeRow) :=
  (normalize_defaults_spec exNoSchema ⟨[], [], []⟩).1 (by decide)

/-- `np.random.randint(lo, hi)` lands in `[lo, hi)`. -/
lemma randint_bounds (lo hi e : ℕ) (h : lo < hi) :
    lo ≤ randint lo hi e ∧ randint lo hi e < hi := by
  unfold randint
  have := Nat.mod_lt e (show 0 < hi - lo by omega)
  omega

/-- `np.clip` keeps a value inside `[lo, hi]` when `lo ≤ hi`. -/
lemma clip_bounds {lo hi : ℚ} (x : ℚ) (h : lo ≤ hi) :
    lo ≤ clip lo hi x ∧ clip lo hi x ≤ hi :=
  ⟨le_max_left _ _, max_le h (min_le_left _ _)⟩

/-- C5: every call of the demo generator yields 120 TimeSeries rows, 5
HashtagCounts rows and 5 GeoEngagement rows, with `sentiment ∈ [-1, 1]`,
`posts ∈ [50, 400)`, `count ∈ [200, 2000)` and `engagement ∈ [100, 3000)`,
whatever the random draws were. -/
theorem load_demo_spec (sinNoise : ℕ → ℚ) (pe te ge : ℕ → ℕ) :
    (load_demo sinNoise pe te ge).time.length = 120 ∧
    (load_demo sinNoise pe te ge).tags.length = 5 ∧
    (load_demo sinNoise pe te ge).geo.length = 5 ∧
    (∀ r ∈ (load_demo sinNoise pe te ge).time,
        -1 ≤ r.sentiment ∧ r.sentiment ≤ 1 ∧ 50 ≤ r.posts ∧ r.posts < 400) ∧
    (∀ r ∈ (load_demo sinNoise pe te ge).tags,
        200 ≤ r.count ∧ r.count < 2000) ∧
    (∀ r ∈ (load_demo sinNoise pe te ge).geo,
        100 ≤ r.engagement ∧ r.engagement < 3000) := by
  refine ⟨by simp [load_demo], by simp [load_demo], by simp [load_demo], ?_, ?_, ?_⟩
  · intro r hr
    simp only [load_demo, List.mem_map, List.mem_range] at hr
    obtain ⟨i, -, rfl⟩ := hr
    dsimp only
    have hs := clip_bounds (sinNoise i) (show (-1 : ℚ) ≤ 1 by norm_num)
    have hp := randint_bounds 50 400 (pe i) (by norm_num)
    refine ⟨hs.1, hs.2, ?_, ?_⟩
    · exact_mod_cast hp.1
    · exact_mod_cast hp.2
  · intro r hr
    simp only [load_demo, List.mem_map, List.mem_range] at hr
    obtain ⟨i, -, rfl⟩ := hr
    dsimp only
    have hc := randint_bounds 200 2000 (te i) (by norm_num)
    exact ⟨by exact_mod_cast hc.1, by exact_mod_cast hc.2⟩
  · intro r hr
    simp only [load_demo, List.mem_map, List.mem_range] at hr
    obtain ⟨i, -, rfl⟩ := hr
    dsimp only
    have hc := randint_bounds 100 3000 (ge i) (by norm_num)
    exact ⟨by exact_mod_cast hc.1, by exact_mod_cast hc.2⟩

/-- Witness for C5: with the all-zero draws the first hashtag row exists in
the generated table and its count obeys the bounds. -/
theorem load_demo_spec_witness :
    200 ≤ ({ hashtag := Val.str "#ClimateJustice", count := 200 } : TagRow).count ∧
    ({ hashtag := Val.str "#ClimateJustice", count := 200 } : TagRow).count < 2000 :=
  (load_demo_spec (fun _ => 0) (fun _ => 0) (fun _ => 0) (fun _ => 0)).2.2.2.2.1
    { hashtag := Val.str "#ClimateJustice", count := 200 } (by decide)

/-- A raw row failing the three-column null test projects to nothing. -/
lemma projTime_eq_none {r : Row} (h : timeComplete r = false) :
    projTime r = none := by
  unfold timeComplete at h
  unfold projTime
  cases hd : r.get "date" <;> cases hp : r.get "posts" <;>
    cases hs : r.get "sentiment" <;> simp_all

/-- A raw row passing the three-column null test projects to its
`timeProj`. -/
lemma projTime_eq_some {r : Row} (h : timeComplete r = true) :
    projTime r = some (timeProj r) := by
  unfold timeComplete at h
  unfold projTime timeProj
  cases hd : r.get "date" <;> cases hp : r.get "posts" <;>
    cases hs : r.get "sentiment" <;> simp_all

/-- The TimeSeries branch is the null-row filter followed by the
three-column projection. -/
lemma timeBranch_eq (t : RawTable) :
    timeBranch t = (t.rows.filter timeComplete).map timeProj := by
  unfold timeBranch
  induction t.rows with
  | nil => rfl
  | cons r rest ih =>
    cases h : timeComplete r
    · rw [List.filterMap_cons, projTime_eq_none h,
        List.filter_cons_of_neg (by simp [h]), ih]
    · rw [List.filterMap_cons, projTime_eq_some h,
        List.filter_cons_of_pos h, List.map_cons, ih]

/-- C2: when the raw table has all of `date`, `posts`, `sentiment`, the
normalized TimeSeries is the projection onto those three columns with every
row containing a null dropped; the default TimeSeries is discarded (the
result does not depend on it); and the spec's two-row scenario normalizes
to exactly one row. -/
theorem normalize_time_spec (raw : RawTable) (d d' : Tables)
    (h : hasCols raw ["date", "posts", "sentiment"] = true) :
    (normalize raw d).time = (raw.rows.filter timeComplete).map timeProj ∧
    (normalize raw d).time = (normalize raw d').time ∧
    (normalize exRawTime d).time = [{ date := 19723, sentiment := 1/2, posts := 100 }] := by
  have hex : hasCols exRawTime ["date", "posts", "sentiment"] = true := by decide
  refine ⟨?_, ?_, ?_⟩
  · simp only [normalize, h, if_true]
    exact timeBranch_eq raw
  · simp [normalize, h]
  · simp only [normalize, hex, if_true]
    simp [timeBranch, exRawTime, projTime, Row.get, List.find?, Val.toDate, Val.toRat]

/-- Witness for C2: the two-row scenario table, normalized against empty
defaults, keeps exactly its first row. -/
theorem normalize_time_spec_witness :
    (normalize exRawTime ⟨[], [], []⟩).time =
      [{ date := 19723, sentiment := 1/2, posts := 100 }] :=
  (normalize_time_spec exRawTime ⟨[], [], []⟩ ⟨[], [], []⟩ (by decide)).2.2

/-- Group sums are invariant under permutation of the raw rows. -/
lemma gsum_perm (k : Val) {rows rows' : List Row} (hp : rows ~ rows') :
    gsum k rows = gsum k rows' := by
  unfold gsum
  exact ((hp.filter _).map _).sum_eq

/-- The whole HashtagCounts branch output is permuted when the raw rows
are permuted. -/
lemma tagBranch_perm {cols cols' : List String} {rows rows' : List Row}
    (hp : rows ~ rows') :
    tagBranch ⟨cols, rows⟩ ~ tagBranch ⟨cols', rows'⟩ := by
  unfold tagBranch tagKeys
  have hkeys : (rows.filterMap (fun r => r.get "hashtag")).dedup ~
      (rows'.filterMap (fun r => r.get "hashtag")).dedup :=
    (hp.filterMap _).dedup
  calc (rows.filterMap (fun r => r.get "hashtag")).dedup.map
          (fun k => ({ hashtag := k, count := gsum k rows } : TagRow))
      ~ (rows'.filterMap (fun r => r.get "hashtag")).dedup.map
          (fun k => ({ hashtag := k, count := gsum k rows } : TagRow)) :=
        hkeys.map _
    _ = (rows'.filterMap (fun r => r.get "hashtag")).dedup.map
          (fun k => ({ hashtag := k, count := gsum k rows' } : TagRow)) := by
        apply List.map_congr_left
        intro k _
        rw [gsum_perm k hp]

/-- The hashtags of the HashtagCounts branch are the distinct non-null
hashtag cells of the raw rows. -/
lemma tagBranch_map_hashtag (t : RawTable) :
    (tagBranch t).map (·.hashtag) = tagKeys t.rows := by
  unfold tagBranch
  rw [List.map_map]
  have hcomp : ((fun p : TagRow => p.hashtag) ∘
      fun k => ({ hashtag := k, count := gsum k t.rows } : TagRow)) = id := by
    funext k
    rfl
  rw [hcomp, List.map_id]

/-- C3: for a raw table with the `hashtag` and `count` columns, the
normalized HashtagCounts has one row per distinct hashtag value, each
carrying the sum of that hashtag's `count` cells; the multiset of output
rows is unchanged when the raw rows are permuted; and the spec's
three-row scenario yields `#A = 15`, `#B = 7`. -/
theorem normalize_tags_spec (raw : RawTable) (d : Tables)
    (h : hasCols raw ["hashtag", "count"] = true) :
    ((normalize raw d).tags.map (·.hashtag)).Nodup ∧
    (∀ k : Val, (∃ p ∈ (normalize raw d).tags, p.hashtag = k) ↔
        ∃ r ∈ raw.rows, r.get "hashtag" = some k) ∧
    (∀ p ∈ (normalize raw d).tags,
        p.count = ((raw.rows.filter
          (fun r => r.get "hashtag" == some p.hashtag)).map rowCount).sum) ∧
    (∀ rows' : List Row, rows' ~ raw.rows →
        (normalize ⟨raw.cols, rows'⟩ d).tags ~ (normalize raw d).tags) ∧
    (normalize exRawTags d).tags = [⟨Val.str "#A", 15⟩, ⟨Val.str "#B", 7⟩] := by
  have hex : hasCols exRawTags ["hashtag", "count"] = true := by decide
  have hraw : (normalize raw d).tags = tagBranch raw := by simp [normalize, h]
  refine ⟨?_, ?_, ?_, ?_, ?_⟩
  · rw [hraw, tagBranch_map_hashtag]
    exact List.nodup_dedup _
  · intro k
    rw [hraw]
    simp [tagBranch, tagKeys, List.mem_filterMap]
  · intro p hp
    rw [hraw] at hp
    simp only [tagBranch, List.mem_map] at hp
    obtain ⟨k, -, rfl⟩ := hp
    rfl
  · intro rows' hp
    have h' : hasCols ⟨raw.cols, rows'⟩ ["hashtag", "count"] = true := h
    rw [hraw]
    simp only [normalize, h', if_true]
    exact tagBranch_perm hp
  · simp only [normalize, hex, if_true]
    simp [tagBranch, exRawTags, tagKeys, Row.get, List.find?, gsum, rowCount,
      List.dedup_cons_of_mem, List.dedup_cons_of_not_mem, Val.toRat]
    norm_num

/-- Witness for C3: the three-row scenario, against empty defaults. -/
theorem normalize_tags_spec_witness :
    (normalize exRawTags ⟨[], [], []⟩).tags =
      [⟨Val.str "#A", 15⟩, ⟨Val.str "#B", 7⟩] :=
  (normalize_tags_spec exRawTags ⟨[], [], []⟩ (by decide)).2.2.2.2

/-- C9: HashtagCounts normalization silently omits rows whose hashtag is
null, a null `count` contributes 0 to its group's sum, and every output
row's count is its group's sum (no whole-row null drop is applied: a row
with a hashtag but a null count still produces its group). -/
theorem tag_null_spec :
    (∀ (cols : List String) (rows : List Row) (r : Row),
        r.get "hashtag" = none →
        tagBranch ⟨cols, r :: rows⟩ = tagBranch ⟨cols, rows⟩) ∧
    (∀ (k : Val) (r : Row) (rows : List Row),
        r.get "count" = none → gsum k (r :: rows) = gsum k rows) ∧
    (∀ (t : RawTable) (p : TagRow),
        p ∈ tagBranch t → p.count = gsum p.hashtag t.rows) ∧
    tagBranch ⟨["hashtag", "count"], [[("hashtag", Val.str "#A")]]⟩ =
      [⟨Val.str "#A", 0⟩] := by
  refine ⟨?_, ?_, ?_, ?_⟩
  · intro cols rows r h
    unfold tagBranch tagKeys
    simp only [List.filterMap_cons, h]
    apply List.map_congr_left
    intro k _
    have : gsum k (r :: rows) = gsum k rows := by
      unfold gsum
      rw [List.filter_cons_of_neg (by simp [h])]
    rw [this]
  · intro k r rows h
    unfold gsum
    by_cases hk : (r.get "hashtag" == some k) = true
    · rw [List.filter_cons_of_pos (p := fun x : Row => x.get "hashtag" == some k) hk,
        List.map_cons, List.sum_cons]
      simp [rowCount, h]
    · rw [List.filter_cons_of_neg (by simpa using hk)]
  · intro t p hp
    simp only [tagBranch, List.mem_map] at hp
    obtain ⟨k, -, rfl⟩ := hp
    rfl
  · simp [tagBranch, tagKeys, Row.get, List.find?, gsum, rowCount]

/-- Witness for C9: a first row with a null hashtag cell is dropped from
the grouping. -/
theorem tag_null_spec_witness :
    tagBranch ⟨["hashtag", "count"],
        [[("count", Val.num 5)], [("hashtag", Val.str "#A"), ("count", Val.num 3)]]⟩ =
      tagBranch ⟨["hashtag", "count"],
        [[("hashtag", Val.str "#A"), ("count", Val.num 3)]]⟩ :=
  tag_null_spec.1 ["hashtag", "count"]
    [[("hashtag", Val.str "#A"), ("count", Val.num 3)]]
    [("count", Val.num 5)] (by decide)

/-- Cell lookup on a cons row. -/
lemma row_get_cons (c : String) (v : Val) (rest : Row) (d : String) :
    Row.get ((c, v) :: rest) d = if c == d then some v else Row.get rest d := by
  by_cases h : (c == d) = true <;> simp [Row.get, h]

/-- A cell lookup misses when no entry of the row carries the column. -/
lemma row_get_eq_none {r : Row} {c : String} (h : ∀ kv ∈ r, kv.1 ≠ c) :
    r.get c = none := by
  unfold Row.get
  rw [List.find?_eq_none.mpr]
  · rfl
  · intro kv hkv
    simpa using h kv hkv

/-- A row with no `date` entry is untouched by the date coercion. -/
lemma parseRowDate_of_no_date (parse : Val → Option ℤ) :
    ∀ r : Row, (∀ kv ∈ r, kv.1 ≠ "date") → parseRowDate parse r = r := by
  intro r
  induction r with
  | nil => intro _; rfl
  | cons kv rest ih =>
    intro h
    have hkv : (kv.1 == "date") = false := by
      simpa using h kv (List.mem_cons_self kv rest)
    simp only [parseRowDate, hkv, Bool.false_eq_true, if_false]
    rw [ih (fun x hx => h x (List.mem_cons_of_mem kv hx))]

/-- The date coercion rewrites exactly the `date` cell of a row: it becomes
the parse of the old value (null when unparseable or already null). -/
lemma parseRowDate_get_date (parse : Val → Option ℤ) :
    ∀ r : Row, (r.map Prod.fst).Nodup →
      (parseRowDate parse r).get "date" =
        (r.get "date").bind (fun v => (parse v).map Val.date) := by
  intro r
  induction r with
  | nil => intro _; rfl
  | cons kv rest ih =>
    intro hnd
    obtain ⟨c, v⟩ := kv
    have hnd' : c ∉ rest.map Prod.fst ∧ (rest.map Prod.fst).Nodup := by
      simpa [List.nodup_cons] using hnd
    by_cases hc : c = "date"
    · subst hc
      cases hp : parse v with
      | some d =>
        simp [parseRowDate, hp, row_get_cons]
      | none =>
        have hnodate : ∀ kv ∈ rest, kv.1 ≠ "date" := by
          intro kv hkv heq
          exact hnd'.1 (heq ▸ List.mem_map_of_mem Prod.fst hkv)
        simp [parseRowDate, hp, parseRowDate_of_no_date parse rest hnodate,
          row_get_eq_none hnodate, row_get_cons]
    · have hcb : (c == "date") = false := by simpa using hc
      simp [parseRowDate, hcb, row_get_cons, ih hnd'.2]

/-- The date coercion leaves every other column's cells unchanged. -/
lemma parseRowDate_get_other (parse : Val → Option ℤ) (c : String)
    (hc : c ≠ "date") :
    ∀ r : Row, (parseRowDate parse r).get c = r.get c := by
  intro r
  induction r with
  | nil => rfl
  | cons kv rest ih =>
    obtain ⟨e, v⟩ := kv
    have hne : (("date" : String) == c) = false := by
      simpa using fun h => hc h.symm
    by_cases hd : e = "date"
    · subst hd
      cases hp : parse v with
      | some d => simp [parseRowDate, hp, row_get_cons, hne, ih]
      | none => simp [parseRowDate, hp, row_get_cons, hne, ih]
    · have hdb : (e == "date") = false := by simpa using hd
      simp [parseRowDate, hdb, row_get_cons, ih]


/-- C8: `load_csv` never drops a row (row counts preserved); it leaves the
table unchanged exactly when no column is literally named `date`; and when
one is, every `date` cell is replaced in place by its parse, unparseable
values becoming null, with all other columns untouched. -/
theorem load_csv_spec (parse : Val → Option ℤ) (t : RawTable) :
    (load_csv parse t).rows.length = t.rows.length ∧
    (load_csv parse t).cols = t.cols ∧
    ("date" ∉ t.cols → load_csv parse t = t) ∧
    ("date" ∈ t.cols →
      (load_csv parse t).rows = t.rows.map (parseRowDate parse)) ∧
    (∀ r : Row, (r.map Prod.fst).Nodup →
      (parseRowDate parse r).get "date" =
        (r.get "date").bind (fun v => (parse v).map Val.date) ∧
      ∀ c : String, c ≠ "date" → (parseRowDate parse r).get c = r.get c) := by
  refine ⟨?_, ?_, ?_, ?_, ?_⟩
  · unfold load_csv
    by_cases h : "date" ∈ t.cols <;> simp [h]
  · unfold load_csv
    by_cases h : "date" ∈ t.cols <;> simp [h]
  · intro h
    unfold load_csv
    rw [if_neg h]
  · intro h
    unfold load_csv
    rw [if_pos h]
  · intro r hnd
    exact ⟨parseRowDate_get_date parse r hnd,
      fun c hc => parseRowDate_get_other parse c hc r⟩

/-- Witness for C8: a table without a `date` column is returned as is. -/
theorem load_csv_spec_witness :
    load_csv (fun _ => none) exRawNoDate = exRawNoDate :=
  (load_csv_spec (fun _ => none) exRawNoDate).2.2.1 (by decide)

/-- The descending-count comparison is transitive. -/
lemma tagLE_trans : ∀ a b c : TagRow, tagLE a b → tagLE b c → tagLE a c := by
  intro a b c hab hbc
  simp only [tagLE, decide_eq_true_eq] at *
  exact le_trans hbc hab

/-- The descending-count comparison is total. -/
lemma tagLE_total : ∀ a b : TagRow, tagLE a b || tagLE b a := by
  intro a b
  simp only [tagLE, Bool.or_eq_true, decide_eq_true_eq]
  exact le_total b.count a.count

/-- The head of the stable descending sort is the first row of the input
carrying the maximal count. -/
lemma sortByCountDesc_head (tags : List TagRow) (hne : tags ≠ []) :
    ∃ r : TagRow, (sortByCountDesc tags).head? = some r ∧
      (tags.filter (fun x => decide (x.count = r.count))).head? = some r ∧
      ∀ x ∈ tags, x.count ≤ r.count := by
  obtain ⟨r, s', hs⟩ : ∃ r s', sortByCountDesc tags = r :: s' := by
    cases h : sortByCountDesc tags with
    | nil =>
      exfalso
      apply hne
      have hlen : tags.length = 0 := by
        simpa [sortByCountDesc] using congrArg List.length h
      exact List.length_eq_zero.mp hlen
    | cons a l => exact ⟨a, l, rfl⟩
  have hperm : sortByCountDesc tags ~ tags := List.mergeSort_perm tags tagLE
  have hsort : (sortByCountDesc tags).Pairwise (fun a b => tagLE a b = true) :=
    List.sorted_mergeSort tagLE_trans tagLE_total tags
  have hmax : ∀ x ∈ tags, x.count ≤ r.count := by
    intro x hx
    have hx' : x ∈ sortByCountDesc tags := hperm.mem_iff.mpr hx
    rw [hs] at hx'
    rcases List.mem_cons.mp hx' with h | h
    · subst h; exact le_rfl
    · have hle := (List.pairwise_cons.mp (hs ▸ hsort)).1 x h
      simpa [tagLE] using hle
  refine ⟨r, by rw [hs]; rfl, ?_, hmax⟩
  have hF_pair : (tags.filter (fun x => decide (x.count = r.count))).Pairwise
      (fun a b => tagLE a b = true) := by
    apply List.pairwise_of_forall_mem_list
    intro a ha b hb
    have ha' := (List.mem_filter.mp ha).2
    have hb' := (List.mem_filter.mp hb).2
    simp only [decide_eq_true_eq] at ha' hb'
    simp [tagLE, ha', hb']
  have hF_sub_s : tags.filter (fun x => decide (x.count = r.count)) <+
      sortByCountDesc tags :=
    List.sublist_mergeSort tagLE_trans tagLE_total hF_pair (List.filter_sublist tags)
  have hFF : (tags.filter (fun x => decide (x.count = r.count))).filter
      (fun x => decide (x.count = r.count)) =
      tags.filter (fun x => decide (x.count = r.count)) :=
    List.filter_eq_self.mpr (fun a ha => (List.mem_filter.mp ha).2)
  have hsub2 : tags.filter (fun x => decide (x.count = r.count)) <+
      (sortByCountDesc tags).filter (fun x => decide (x.count = r.count)) :=
    hFF ▸ (hF_sub_s.filter _)
  have hpermF : (sortByCountDesc tags).filter (fun x => decide (x.count = r.count)) ~
      tags.filter (fun x => decide (x.count = r.count)) :=
    hperm.filter _
  have heq : tags.filter (fun x => decide (x.count = r.count)) =
      (sortByCountDesc tags).filter (fun x => decide (x.count = r.count)) :=
    hsub2.eq_of_length (by rw [hpermF.length_eq])
  rw [heq, hs, List.filter_cons_of_pos (by simp)]
  rfl

/-- C6: on a non-empty HashtagCounts table, the top-hashtag lookup returns
the hashtag of a row of maximal count, and among the rows sharing that
maximal count it is the one earliest in input order (the head of the filter
by that count). -/
theorem topHashtag_spec (tags : List TagRow) (hne : tags ≠ []) :
    ∃ r : TagRow, topHashtag tags = r.hashtag ∧
      (tags.filter (fun x => decide (x.count = r.count))).head? = some r ∧
      ∀ x ∈ tags, x.count ≤ r.count := by
  obtain ⟨r, h1, h2, h3⟩ := sortByCountDesc_head tags hne
  refine ⟨r, ?_, h2, h3⟩
  unfold topHashtag
  rw [if_neg (by simpa [List.isEmpty_iff] using hne), h1]

/-- Witness for C6: on the tie table the lookup picks `#Y`, the first of
the two rows with the maximal count 7. -/
theorem topHashtag_spec_witness :
    ∃ r : TagRow, topHashtag exTagsTie = r.hashtag ∧
      (exTagsTie.filter (fun x => decide (x.count = r.count))).head? = some r ∧
      ∀ x ∈ exTagsTie, x.count ≤ r.count :=
  topHashtag_spec exTagsTie (by decide)

end SocialDash
